import Mathlib

/-!
Verification of the `within24hours` news-reel automation pipeline
(`src/index_multi.js`).  Strings are modelled as `List Char`; the
behaviour of the external services (generative-text backend, TTS
endpoint, image search page, ffprobe) is abstracted as explicit
environment records, and each JavaScript function is translated into a
pure Lean function over those environments.
-/

namespace W24

/-- Strings of the JavaScript source, modelled as lists of characters. -/
abbrev Str := List Char

/-- The characters stripped by JavaScript `String.prototype.trim`
(ECMAScript WhiteSpace and LineTerminator code points). -/
def jsWS (c : Char) : Bool :=
  c = ' ' || c = '\t' || c = '\n' || c = '\r' ||
  c = '\x0b' || c = '\x0c' || c = '\u00a0' || c = '\ufeff' ||
  c = '\u1680' || ('\u2000' ≤ c && c ≤ '\u200a') || c = '\u202f' ||
  c = '\u205f' || c = '\u3000' || c = '\u2028' || c = '\u2029'

/-- Leading-whitespace removal (half of JS `trim`). -/
def trimLeft (l : Str) : Str := l.dropWhile jsWS

/-- Trailing-whitespace removal (the other half of JS `trim`). -/
def trimRight (l : Str) : Str := ((l.reverse.dropWhile jsWS)).reverse

/-- JavaScript `String.prototype.trim`. -/
def trimL (l : Str) : Str := trimRight (trimLeft l)

/-- Index of the first occurrence of `c` (JS `indexOf`, as an `Option`). -/
def firstIdxOf (c : Char) : Str → Option Nat
  | [] => none
  | a :: l => if a = c then some 0 else (firstIdxOf c l).map (· + 1)

/-- Index of the last occurrence of `c` (JS `lastIndexOf`, as an `Option`). -/
def lastIdxOf (c : Char) : Str → Option Nat
  | [] => none
  | a :: l =>
    match lastIdxOf c l with
    | some k => some (k + 1)
    | none => if a = c then some 0 else none

/-- JS `String.prototype.substring`: swaps out-of-order arguments and
extracts the half-open slice. -/
def jsSubstring (l : Str) (a b : Nat) : Str :=
  (l.drop (min a b)).take (max a b - min a b)

/-- The Markdown fence `"``` "`-style delimiter (three backticks). -/
def fenceChars : Str := "```".toList

/-- The opening fence with language tag, `"```json"`. -/
def fenceJsonChars : Str := "```json".toList

/-- Case-insensitive match of a segment against a pattern (model of a
`/i` regex over ASCII patterns): the lower-cased segment must equal the
pattern. -/
def matchCI (pat seg : Str) : Bool := seg.map Char.toLower = pat

/-- `cleaned.replace(/^```json/i, "")` from `cleanGeminiJSON`. -/
def stripFenceJson (l : Str) : Str :=
  if matchCI fenceJsonChars (l.take fenceJsonChars.length) then
    l.drop fenceJsonChars.length
  else l

/-- `cleaned.replace(/^```/, "")` from `cleanGeminiJSON`. -/
def stripFenceHead (l : Str) : Str :=
  if l.take fenceChars.length = fenceChars then l.drop fenceChars.length else l

/-- `cleaned.replace(/```$/, "")` from `cleanGeminiJSON`. -/
def stripFenceTail (l : Str) : Str :=
  if l.reverse.take fenceChars.length = fenceChars.reverse then
    (l.reverse.drop fenceChars.length).reverse
  else l

/-- The brace-truncation step of `cleanGeminiJSON`: when both a `\x7b`
and a `\x7d` occur, keep `substring(firstCurly, lastCurly + 1)`. -/
def curlyExtract (l : Str) : Str :=
  match firstIdxOf '\x7b' l, lastIdxOf '\x7d' l with
  | some i, some j => jsSubstring l i (j + 1)
  | _, _ => l

/-- `cleanGeminiJSON` from `src/index_multi.js` (lines 32-48): empty
input yields `"\x7b\x7d"`; otherwise trim, strip Markdown fences, truncate
to the outermost curly braces, and trim again. -/
def cleanGeminiJSON (text : Str) : Str :=
  if text = [] then ['\x7b', '\x7d']
  else trimL (curlyExtract (stripFenceTail (stripFenceHead (stripFenceJson (trimL text)))))

/-! ### Content Fetcher (`getNews`, lines 78-214) -/

/-- The JavaScript value found at a field of the parsed JSON object:
an array (carrying its elements), `null`, `undefined` (field absent),
or any other non-array value.  `α` is the type of digest items. -/
inductive JField (α : Type) where
  | jarr : List α → JField α
  | jnull : JField α
  | jundef : JField α
  | jother : JField α
deriving DecidableEq

/-- The two region fields of the digest object (`parsed.India`,
`parsed.World`), and also the shape of the value `getNews` returns. -/
structure JDigest (α : Type) where
  India : JField α
  World : JField α
deriving DecidableEq

/-- `Array.isArray(x) ? x : []` — the guard used to build `safeParsed`. -/
def jarrOrEmpty {α : Type} : JField α → List α
  | .jarr l => l
  | _ => []

/-- The `safeParsed` object of `getNews` (lines 188-191): both fields
forced to arrays. -/
def safeParsed {α : Type} (v : JDigest α) : JDigest α :=
  ⟨.jarr (jarrOrEmpty v.India), .jarr (jarrOrEmpty v.World)⟩

/-- The fixed model-fallback list of `getNews` (lines 88-94). -/
def geminiModels : List String :=
  ["gemini-1.5-flash", "gemini-1.5-pro", "gemini-pro",
   "gemini-2.5-flash", "gemini-2.5-pro"]

/-- Environment of `getNews`: whether a Gemini API key is configured,
the raw response text produced by each model (`none` when
`generateContent` rejects; the empty string stands for a response
without a `text` function), and the behaviour of `JSON.parse` on the
cleaned text (`none` when parsing throws). -/
structure NewsEnv (α : Type) where
  hasKey : Bool
  respond : String → Option Str
  parse : Str → Option (JDigest α)

/-- One iteration of the `getNews` retry loop (the `try` block, lines
166-201): `none` when this model's attempt failed (request error, JSON
parse error, or both region arrays empty) and the loop advances. -/
def attemptModel {α : Type} (env : NewsEnv α) (m : String) : Option (JDigest α) :=
  match env.respond m with
  | none => none
  | some raw =>
    match env.parse (cleanGeminiJSON (trimL raw)) with
    | none => none
    | some v =>
      let d := safeParsed v
      if (jarrOrEmpty d.India).length > 0 || (jarrOrEmpty d.World).length > 0 then
        some d
      else none

/-- The retry loop of `getNews` over the remaining model names; when the
list is exhausted the fallback `\x7bIndia: [], World: []\x7d` is returned
(lines 211-213). -/
def getNewsLoop {α : Type} (env : NewsEnv α) : List String → JDigest α
  | [] => ⟨.jarr [], .jarr []⟩
  | m :: rest =>
    match attemptModel env m with
    | some d => d
    | none => getNewsLoop env rest

/-- `getNews` (lines 78-214): with no API key it returns the empty
digest immediately; otherwise it tries each model in order. -/
def getNews {α : Type} (env : NewsEnv α) : JDigest α :=
  if env.hasKey then getNewsLoop env geminiModels else ⟨.jarr [], .jarr []⟩

/-! ### Narration Synthesizer (`fetchTTS`, lines 217-241) and the
`generateTTS` item loop (lines 443-551) -/

/-- The ways the TTS request can fail: transport failure, exceeding the
timeout budget, or a non-success HTTP response. -/
inductive TTSFailure where
  | transport : TTSFailure
  | timeout : TTSFailure
  | nonSuccess : TTSFailure
deriving DecidableEq

/-- The request timeout passed to axios in `fetchTTS` (line 232,
`timeout: 60_000` milliseconds). -/
def ttsTimeoutMs : Nat := 60000

/-- Environment of the TTS endpoint: outcome of the GET request for a
given content string (`.ok` carries no payload; the audio bytes are
opaque). -/
structure TTSEnv where
  ttsResponse : Str → Except TTSFailure Unit

/-- `fetchTTS` (lines 217-241): on success the audio bytes are written
to the folder path and the call resolves; on any failure the error is
logged and rethrown (`throw err`, line 239). -/
def fetchTTS (env : TTSEnv) (content : Str) : Except TTSFailure Unit :=
  match env.ttsResponse content with
  | .ok _ => .ok ()
  | .error e => .error e

/-- `path.join(folder, file)` for the simple relative names the
pipeline builds. -/
def pathJoin (folder file : Str) : Str := folder ++ '/' :: file

/-- One flattened news segment, the unit of work of the `generateTTS`
loop (fields read by the loop body). -/
structure TTSItem where
  id : Nat
  language : Str
  title : Str
  description : Str
  india : Bool
deriving DecidableEq

/-- `audio_{item.id + 1}_{item.language}.mp3` inside the output
directory (lines 459-462). -/
def audioPath (outputDir : Str) (it : TTSItem) : Str :=
  pathJoin outputDir
    ("audio_".toList ++ (toString (it.id + 1)).toList ++ '_' :: it.language ++ ".mp3".toList)

/-- An entry of the `audioFiles` list returned by `generateTTS`
(lines 476-480). -/
structure AudioFileRec where
  path : Str
  title : Str
  desc : Str
deriving DecidableEq

/-- The `generateTTS` loop (lines 455-548): for each item, `fetchTTS`
is attempted; on failure the item is skipped (`continue`, line 473) —
no `audioFiles` entry, no illustration/compositing.  On success the
record is pushed and the downstream steps run.  The first component is
the returned `audioFiles` list; the second lists the items whose
downstream illustration/compositing steps were reached. -/
def generateTTSRun (env : TTSEnv) (outputDir : Str) : List TTSItem → List AudioFileRec × List TTSItem
  | [] => ([], [])
  | it :: rest =>
    match fetchTTS env it.description with
    | .error _ => generateTTSRun env outputDir rest
    | .ok _ =>
      let (files, downstream) := generateTTSRun env outputDir rest
      (⟨audioPath outputDir it, it.title, it.description⟩ :: files, it :: downstream)

/-! ### Illustration-cache check inside the `generateTTS` loop
(lines 494-510) -/

/-- Model of `fs.access(imgPath)` as written on line 496: the import is
the callback-based `fs` module and no callback argument is supplied, so
Node throws `ERR_INVALID_ARG_TYPE` synchronously — regardless of
whether the file exists. -/
def fsAccessNoCallback (_fileExists : Bool) : Except String Unit :=
  .error "ERR_INVALID_ARG_TYPE"

/-- The image-prep `try/catch` (lines 494-510): returns `true` when the
`catch` branch — which calls `fetchImage` — runs. -/
def imagePrepFetchInvoked (fileExists : Bool) : Bool :=
  match fsAccessNoCallback fileExists with
  | .ok _ => false
  | .error _ => true

/-! ### Illustration Fetcher (`fetchImage`, lines 254-313) -/

/-- One `li.ld` result entry of the search page: the `data` attribute
(defaulted to the empty string by `|| ""`), the `aria-label`, and the
effective image source (`data-src` falling back to `src`, absent when
neither exists). -/
structure SearchEntry where
  dataAttr : Str
  ariaLabel : Str
  imgSrc : Option Str
deriving DecidableEq

/-- `dataAttr.toLowerCase().includes("youtube")` (line 279). -/
def flaggedYoutube (e : SearchEntry) : Bool :=
  decide (("youtube".toList) <:+: (e.dataAttr.map Char.toLower))

/-- An entry the loop accepts: it has an image source and is not
flagged as a YouTube result. -/
def eligibleEntry (e : SearchEntry) : Bool :=
  e.imgSrc.isSome && !flaggedYoutube e

/-- `imgSrc.split("?")[0]` (line 283): drop everything from the first
`?` on. -/
def stripQuery (u : Str) : Str := u.takeWhile (fun c => c ≠ '?')

/-- The `$("li.ld").each` selection loop (lines 269-289): first entry
with a source and without the YouTube flag wins; the result pairs the
`aria-label` with the query-stripped URL. -/
def selectFirstValid : List SearchEntry → Option (Str × Str)
  | [] => none
  | e :: rest =>
    match e.imgSrc with
    | none => selectFirstValid rest
    | some src =>
      if flaggedYoutube e then selectFirstValid rest
      else some (e.ariaLabel, stripQuery src)

/-- Environment of `fetchImage`: outcome of fetching and parsing the
search page for a query, of downloading a URL, and of the sharp
resize-and-write to the destination path. -/
structure FetchImageEnv where
  searchPage : Str → Except Unit (List SearchEntry)
  download : Str → Except Unit Unit
  resizeWrite : Str → Except Unit Unit

/-- The body of `fetchImage`'s `try` block (lines 258-307): `.ok true`
when an image was downloaded and written, `.ok false` when no valid
entry existed ("No valid images to download!"), `.error` when any stage
threw. -/
def fetchImageRun (env : FetchImageEnv) (query savePath : Str) : Except Unit Bool :=
  match env.searchPage query with
  | .error e => .error e
  | .ok entries =>
    match selectFirstValid entries with
    | none => .ok false
    | some sel =>
      match env.download sel.2 with
      | .error e => .error e
      | .ok _ =>
        match env.resizeWrite savePath with
        | .error e => .error e
        | .ok _ => .ok true

/-- `fetchImage` (lines 254-313): every failure is caught and logged
(line 309) and the function always returns `savePath`; the Boolean
records whether an image file was written. -/
def fetchImage (env : FetchImageEnv) (query savePath : Str) : Str × Bool :=
  match fetchImageRun env query savePath with
  | .ok w => (savePath, w)
  | .error _ => (savePath, false)

/-! ### Caption Compositor (`generateReel`, lines 370-440) -/

/-- JavaScript `Math.round` on the (rational-valued) probed duration. -/
def jsRound (q : ℚ) : ℤ := ⌊q + 1 / 2⌋

/-- `metadata.format.duration || 10` (line 381): an absent duration
field — and, by JavaScript falsiness, a zero duration — falls back to
10. -/
def jsOrDuration (d : Option ℚ) : ℚ :=
  match d with
  | none => 10
  | some x => if x = 0 then 10 else x

/-- The probe results `generateReel` consults: the audio file's
`format.duration` (absent when ffprobe reports none) together with the
base video's native duration and width, which the source reads only for
logging/scaling and never for the output-duration computation. -/
structure ReelEnv where
  audioDuration : Option ℚ
  baseDuration : ℚ
  videoWidth : ℤ

/-- The `duration` variable of `generateReel` (line 381). -/
def generateReelDuration (env : ReelEnv) : ℚ := jsOrDuration env.audioDuration

/-- The value passed in the `-t` output option (line 422,
`-t ${Math.round(duration)}`), which trims the clip's output
duration. -/
def generateReelTValue (env : ReelEnv) : ℤ := jsRound (generateReelDuration env)

/-! ### Reel list construction (`getAllVideos`, lines 553-578, and the
merge-list assembly in `main`, lines 926-948) -/

/-- Case-insensitive match of a filename against
`^reel_\x7blanguage\x7d(\d+)\.mp4$` (the regex of lines 560-573),
returning the parsed numeric suffix. -/
def matchReel (lang : Str) (file : Str) : Option Nat :=
  let f := file.map Char.toLower
  let pre := "reel_".toList ++ lang.map Char.toLower
  let suf := ".mp4".toList
  if f.take pre.length = pre then
    let rest := f.drop pre.length
    if rest.length > suf.length && rest.drop (rest.length - suf.length) = suf then
      let digits := rest.take (rest.length - suf.length)
      if digits.all Char.isDigit then
        some (digits.foldl (fun n c => n * 10 + (c.toNat - 48)) 0)
      else none
    else none
  else none

/-- The sort key of the comparator (lines 565-575): `parseInt` of the
captured digits. -/
def reelKey (lang : Str) (f : Str) : Nat := (matchReel lang f).getD 0

/-- The filtered and numerically sorted `videoFiles` list of
`getAllVideos` (filter lines 559-562, sort lines 565-575; the JS sort
is stable and ascending under the `numA - numB` comparator, modelled by
a stable insertion sort). -/
def getAllVideoNames (lang : Str) (files : List Str) : List Str :=
  List.insertionSort (fun a b => reelKey lang a ≤ reelKey lang b)
    (files.filter (fun f => (matchReel lang f).isSome))

/-- `getAllVideos` (lines 553-578): empty when the folder does not
exist, else the sorted matches joined onto the folder path. -/
def getAllVideos (folderExists : Bool) (folder lang : Str) (files : List Str) : List Str :=
  if folderExists then (getAllVideoNames lang files).map (pathJoin folder) else []

/-- The per-language merge list of `main` (lines 931-936): intro clip,
the reels from `getAllVideos`, outro clip, filtered by
`fs.existsSync`. -/
def mergeList (existsFS : Str → Bool) (intro outro : Str) (videos : List Str) : List Str :=
  ((intro :: videos) ++ [outro]).filter existsFS

/-! ### Reel Assembler (`checkStreams` lines 580-592, `validateVideos`
lines 594-601, `mergeVideos` lines 603-656) -/

/-- Codec type of one stream reported by ffprobe. -/
inductive StreamKind where
  | video : StreamKind
  | audio : StreamKind
  | other : StreamKind
deriving DecidableEq

/-- Result record of `checkStreams` (line 589). -/
structure StreamCheck where
  file : Str
  hasVideo : Bool
  hasAudio : Bool
deriving DecidableEq

/-- `checkStreams` (lines 580-592): probe one file; `none` when ffprobe
exits with an error (the promise rejects). -/
def checkStreams (probe : Str → Option (List StreamKind)) (f : Str) : Option StreamCheck :=
  (probe f).map fun ss =>
    ⟨f, ss.any (fun s => s = StreamKind.video), ss.any (fun s => s = StreamKind.audio)⟩

/-- `validateVideos` (lines 594-601): probe every candidate via
`Promise.all` — one rejection rejects the whole batch. -/
def validateVideos (probe : Str → Option (List StreamKind)) (files : List Str) :
    Option (List StreamCheck) :=
  files.mapM (checkStreams probe)

/-- What `mergeVideos` feeds to ffmpeg: every input file in order, the
concat filter's `n` option, and the files warned about for missing
audio. -/
structure MergePlan where
  inputs : List Str
  concatN : Nat
  noAudioWarned : List Str
deriving DecidableEq

/-- `mergeVideos` (lines 603-656): validates all inputs (a probe
failure rejects), warns about — but does not exclude — clips without
audio, rejects on an empty input list, and otherwise feeds the full
list to the concat filter with `n = videoFiles.length`. -/
def mergeVideos (probe : Str → Option (List StreamKind)) (videoFiles : List Str) :
    Except Unit MergePlan :=
  match validateVideos probe videoFiles with
  | none => .error ()
  | some results =>
    let broken := (results.filter (fun r => !r.hasAudio)).map (fun r => r.file)
    if videoFiles.isEmpty then .error ()
    else .ok ⟨videoFiles, videoFiles.length, broken⟩

/-! ### Concrete environments used by witnesses and counterexamples -/

/-- Environment where the first model answers with a digest whose India
array is non-empty and whose World array is empty. -/
def envC1 : NewsEnv Nat :=
  { hasKey := true
    respond := fun m => if m = "gemini-1.5-flash" then some "x".toList else none
    parse := fun s => if s = "x".toList then some ⟨.jarr [1], .jarr []⟩ else none }

/-- Environment where the first model returns unparseable text and the
second returns a digest with both arrays non-empty. -/
def envC2 : NewsEnv Nat :=
  { hasKey := true
    respond := fun m =>
      if m = "gemini-1.5-flash" then some "bad".toList
      else if m = "gemini-1.5-pro" then some "good".toList
      else none
    parse := fun s => if s = "good".toList then some ⟨.jarr [7], .jarr [8]⟩ else none }

/-- TTS environment for the witness: synthesis fails (times out) exactly
on the content `"b"`. -/
def envC9 : TTSEnv :=
  { ttsResponse := fun c => if c = "b".toList then .error .timeout else .ok () }

/-- Items fed to the `generateTTS` loop in the witness: the middle
item's narration fails. -/
def itemsC9 : List TTSItem :=
  [⟨0, "hindi".toList, "t0".toList, "a".toList, true⟩,
   ⟨1, "hindi".toList, "t1".toList, "b".toList, true⟩,
   ⟨2, "hindi".toList, "t2".toList, "c".toList, false⟩]

/-- Image-fetch environment for the witness: the search-page request
itself fails. -/
def envC10 : FetchImageEnv :=
  { searchPage := fun _ => .error ()
    download := fun _ => .error ()
    resizeWrite := fun _ => .error () }

/-- Probe for the merge witness: `b.mp4` reports no audio stream. -/
def probeC8 : Str → Option (List StreamKind) :=
  fun f => if f = "b.mp4".toList then some [.video] else some [.video, .audio]

/-- Input list for the merge witness. -/
def filesC8 : List Str := ["a.mp4".toList, "b.mp4".toList]

/-- Boolean success test for `Except` (JS: the promise resolved). -/
def exceptOk {ε α : Type} : Except ε α → Bool
  | .ok _ => true
  | .error _ => false

/-- A Gemini reply wrapped in Markdown code fences, as produced when the
model decorates its JSON with ```json ... ``` delimiters. -/
def wrapFences (t : Str) : Str := "```json\n".toList ++ t ++ "\n```".toList

/-- A character list containing neither curly brace; the fence and
whitespace material stripped by `cleanGeminiJSON` is always of this
form. -/
def braceFree (l : Str) : Prop := '\x7b' ∉ l ∧ '\x7d' ∉ l

/-- `m` is `l` with a brace-free prefix and suffix removed. -/
def Sandwich (l m : Str) : Prop :=
  ∃ P S, l = P ++ m ++ S ∧ braceFree P ∧ braceFree S

/-! ## Theorems -/

/-- C3 (code bug): the illustration-cache check is broken.  Line 496
calls the callback-style `fs.access` with no callback, which throws
synchronously even for an existing file, so control always falls into
the `catch` branch and `fetchImage` is invoked even when the image file
already exists — the claimed skip-and-reuse never happens. -/
theorem imagePrep_fetch_despite_cache : imagePrepFetchInvoked true = true := rfl

/-- C5: the `fetchImage` selection loop returns the first entry that
has an image source and whose `data` attribute does not contain
"youtube" (case-insensitively); a flagged entry is never selected, even
as the first result, and the chosen URL has its query string
stripped. -/
theorem fetchImage_skips_youtube_first_match (entries : List SearchEntry) :
    selectFirstValid entries
      = (entries.find? eligibleEntry).map
          (fun e => (e.ariaLabel, stripQuery (e.imgSrc.getD []))) := by
  induction entries with
  | nil => rfl
  | cons e rest ih =>
    cases h : e.imgSrc with
    | none =>
      have he : ¬(eligibleEntry e = true) := by simp [eligibleEntry, h]
      rw [List.find?_cons_of_neg _ he]
      simp only [selectFirstValid, h]
      exact ih
    | some src =>
      cases hf : flaggedYoutube e with
      | true =>
        have he : ¬(eligibleEntry e = true) := by simp [eligibleEntry, hf]
        rw [List.find?_cons_of_neg _ he]
        simp only [selectFirstValid, h, hf, if_true]
        exact ih
      | false =>
        have he : eligibleEntry e = true := by simp [eligibleEntry, h, hf]
        rw [List.find?_cons_of_pos _ he]
        simp [selectFirstValid, h, hf]

/-- C10: `fetchImage` is total at its interface: it always returns the
destination path, and the write flag is set only when the whole
pipeline (search, selection, download, resize) succeeded — any caught
failure or absence of an eligible result completes without a write. -/
theorem fetchImage_total_returns_savePath (env : FetchImageEnv) (q p : Str) :
    (fetchImage env q p).1 = p ∧
    (fetchImage env q p).2 = ((fetchImageRun env q p).toOption.getD false) := by
  constructor
  · unfold fetchImage
    cases fetchImageRun env q p <;> rfl
  · unfold fetchImage
    cases h : fetchImageRun env q p with
    | error e => simp [h, Except.toOption]
    | ok w => simp [h, Except.toOption]

/-- C9: `fetchTTS` propagates the failure of the synthesis request
(transport, 60-second timeout, or non-success response) unchanged; in
the `generateTTS` loop such a failure only skips that one item — it is
omitted from the returned `audioFiles` list, its downstream
illustration/compositing steps are not reached, and the loop continues
with the remaining items. -/
theorem fetchTTS_error_item_skip (env : TTSEnv) (outputDir : Str) (items : List TTSItem) :
    (∀ c e, env.ttsResponse c = .error e → fetchTTS env c = .error e) ∧
    ttsTimeoutMs = 60000 ∧
    (generateTTSRun env outputDir items).1
      = (items.filter (fun it => exceptOk (env.ttsResponse it.description))).map
          (fun it => ⟨audioPath outputDir it, it.title, it.description⟩) ∧
    (generateTTSRun env outputDir items).2
      = items.filter (fun it => exceptOk (env.ttsResponse it.description)) := by
  refine ⟨fun c e he => by simp [fetchTTS, he], rfl, ?_, ?_⟩ <;>
  · induction items with
    | nil => rfl
    | cons it rest ih =>
      cases h : env.ttsResponse it.description with
      | error e => simp [generateTTSRun, fetchTTS, h, exceptOk, ih]
      | ok u => simp [generateTTSRun, fetchTTS, h, exceptOk, ih]

/-- C9 witness: with a concrete three-item list whose middle narration
times out, the loop returns records for the first and third items only
and runs downstream steps exactly for those. -/
theorem fetchTTS_error_item_skip_witness :
    (∀ c e, envC9.ttsResponse c = .error e → fetchTTS envC9 c = .error e) ∧
    ttsTimeoutMs = 60000 ∧
    (generateTTSRun envC9 "out".toList itemsC9).1
      = (itemsC9.filter (fun it => exceptOk (envC9.ttsResponse it.description))).map
          (fun it => ⟨audioPath "out".toList it, it.title, it.description⟩) ∧
    (generateTTSRun envC9 "out".toList itemsC9).2
      = itemsC9.filter (fun it => exceptOk (envC9.ttsResponse it.description)) :=
  fetchTTS_error_item_skip envC9 "out".toList itemsC9

/-- C6 counterexample: a probed duration of exactly 0 is falsy in
JavaScript, so `duration || 10` replaces it with the default and the
`-t` value is 10, not `round(0)`. -/
theorem generateReel_zero_duration_cex :
    generateReelTValue ⟨some 0, 7, 1080⟩ ≠ jsRound 0 := by
  have h1 : generateReelTValue ⟨some 0, 7, 1080⟩ = 10 := by
    show jsRound (jsOrDuration (some 0)) = 10
    norm_num [jsOrDuration, jsRound]
  have h2 : jsRound 0 = 0 := by norm_num [jsRound]
  rw [h1, h2]
  decide

/-- C6 (amended): for a narration asset whose probed duration is a
nonzero D, the `-t` output option trims the clip to `round(D)`,
independent of the base video's native duration and width; when the
duration cannot be probed — or equals 0, which JavaScript treats as
absent — the fallback value 10 is used. -/
theorem generateReel_trim_duration (D : ℚ) (hD : D ≠ 0) (b b' : ℚ) (w w' : ℤ) :
    generateReelTValue ⟨some D, b, w⟩ = jsRound D ∧
    generateReelTValue ⟨some D, b, w⟩ = generateReelTValue ⟨some D, b', w'⟩ ∧
    generateReelTValue ⟨none, b, w⟩ = 10 := by
  refine ⟨?_, rfl, ?_⟩
  · simp [generateReelTValue, generateReelDuration, jsOrDuration, hD]
  · show jsRound 10 = 10
    rw [jsRound]
    norm_num

/-- C6 witness: for the probed duration 5/2 the clip is trimmed to
`round(5/2) = 3` seconds whatever the base video's duration is. -/
theorem generateReel_trim_duration_witness :
    (5 / 2 : ℚ) ≠ 0 ∧
    (generateReelTValue ⟨some (5 / 2), 1, 3⟩ = jsRound (5 / 2) ∧
      generateReelTValue ⟨some (5 / 2), 1, 3⟩ = generateReelTValue ⟨some (5 / 2), 2, 4⟩ ∧
      generateReelTValue ⟨none, 1, 3⟩ = 10) :=
  ⟨by norm_num, generateReel_trim_duration (5 / 2) (by norm_num) 1 2 3 4⟩

/-- C8: `mergeVideos` probes every candidate clip; when all probes
succeed and the list is non-empty, the concat filter is applied to the
full input list with `n` equal to its length — clips lacking an audio
stream are collected into a warning but never excluded. -/
theorem mergeVideos_full_input_concat (probe : Str → Option (List StreamKind))
    (files : List Str) (results : List StreamCheck)
    (hv : validateVideos probe files = some results) (hne : files ≠ []) :
    mergeVideos probe files
      = .ok ⟨files, files.length,
             (results.filter (fun r => !r.hasAudio)).map (fun r => r.file)⟩ := by
  unfold mergeVideos
  rw [hv]
  simp [List.isEmpty_iff, hne]

/-- C8 witness: of two clips, `b.mp4` has no audio stream; the merge
plan still lists both inputs, sets `n = 2`, and warns about `b.mp4`. -/
theorem mergeVideos_full_input_concat_witness :
    validateVideos probeC8 filesC8
        = some [⟨"a.mp4".toList, true, true⟩, ⟨"b.mp4".toList, true, false⟩] ∧
    filesC8 ≠ [] ∧
    mergeVideos probeC8 filesC8
      = .ok ⟨filesC8, filesC8.length,
             ([⟨"a.mp4".toList, true, true⟩,
               (⟨"b.mp4".toList, true, false⟩ : StreamCheck)].filter
                 (fun r => !r.hasAudio)).map (fun r => r.file)⟩ :=
  ⟨by decide, by decide,
   mergeVideos_full_input_concat probeC8 filesC8 _ (by decide) (by decide)⟩

/-- A successful model attempt always produces a digest whose fields
are arrays and whose arrays are not both empty (the retry condition of
lines 188-201). -/
theorem attemptModel_some_shape {α : Type} {env : NewsEnv α} {m : String} {d : JDigest α}
    (h : attemptModel env m = some d) :
    ∃ li lw, d = ⟨.jarr li, .jarr lw⟩ ∧ (li ≠ [] ∨ lw ≠ []) := by
  unfold attemptModel at h
  split at h
  · exact absurd h (by simp)
  · split at h
    · exact absurd h (by simp)
    · rename_i v _
      simp only at h
      split at h
      · rename_i hcond
        injection h with h
        subst h
        refine ⟨jarrOrEmpty v.India, jarrOrEmpty v.World, rfl, ?_⟩
        rcases (Bool.or_eq_true _ _) ▸ hcond with hl | hl
        · left
          intro hnil
          have := of_decide_eq_true hl
          rw [show jarrOrEmpty (safeParsed v).India = jarrOrEmpty v.India from rfl,
            hnil] at this
          simp at this
        · right
          intro hnil
          have := of_decide_eq_true hl
          rw [show jarrOrEmpty (safeParsed v).World = jarrOrEmpty v.World from rfl,
            hnil] at this
          simp at this
      · exact absurd h (by simp)

/-- C1 (amended): `getNews` always returns an object whose `India` and
`World` fields are both arrays — never null, missing, or non-array —
and whenever the result is not the empty digest
`\x7bIndia: [], World: []\x7d`, at least one of the two arrays is
non-empty (the code requires one non-empty array, not both). -/
theorem getNews_shape_amended {α : Type} (env : NewsEnv α) :
    getNews env = ⟨.jarr [], .jarr []⟩ ∨
    ∃ li lw, getNews env = ⟨.jarr li, .jarr lw⟩ ∧ (li ≠ [] ∨ lw ≠ []) := by
  unfold getNews
  cases hk : env.hasKey with
  | false => exact Or.inl rfl
  | true =>
    simp only [if_true]
    induction geminiModels with
    | nil => exact Or.inl rfl
    | cons m rest ih =>
      cases h : attemptModel env m with
      | none => simpa [getNewsLoop, h] using ih
      | some d =>
        right
        obtain ⟨li, lw, hd, hne⟩ := attemptModel_some_shape h
        exact ⟨li, lw, by simp [getNewsLoop, h, hd], hne⟩

/-- C1 counterexample: when the backend answers with a non-empty India
array and an empty World array, `getNews` returns
`\x7bIndia: [1], World: []\x7d` — neither are both arrays non-empty,
nor is it the empty digest, refuting the claim's dichotomy. -/
theorem getNews_both_nonempty_false :
    getNews envC1 = ⟨.jarr [1], .jarr []⟩ ∧
    ¬((jarrOrEmpty (getNews envC1).India ≠ [] ∧ jarrOrEmpty (getNews envC1).World ≠ []) ∨
      getNews envC1 = ⟨.jarr [], .jarr []⟩) := by
  constructor
  · decide
  · decide

/-- The `getNews` retry loop returns the first successful attempt over
the remaining model names, or the empty digest when all fail. -/
theorem getNewsLoop_eq_findSome {α : Type} (env : NewsEnv α) (ms : List String) :
    getNewsLoop env ms = ((ms.findSome? (attemptModel env)).getD ⟨.jarr [], .jarr []⟩) := by
  induction ms with
  | nil => rfl
  | cons m rest ih =>
    rw [getNewsLoop, List.findSome?_cons]
    cases attemptModel env m with
    | none => exact ih
    | some d => rfl

/-- C2: with an API key configured, `getNews` tries the five model
identifiers in their fixed priority order and returns the digest of the
first model whose response is accepted (cleaned text parses as JSON and
the region arrays are not both empty); a parse failure or
empty-both-arrays result advances to the next model, and exhausting the
list yields `\x7bIndia: [], World: []\x7d` without raising. -/
theorem getNews_model_fallback_order {α : Type} (env : NewsEnv α) (h : env.hasKey = true) :
    geminiModels = ["gemini-1.5-flash", "gemini-1.5-pro", "gemini-pro",
                    "gemini-2.5-flash", "gemini-2.5-pro"] ∧
    getNews env = ((geminiModels.findSome? (attemptModel env)).getD ⟨.jarr [], .jarr []⟩) := by
  refine ⟨rfl, ?_⟩
  unfold getNews
  rw [h, if_pos rfl]
  exact getNewsLoop_eq_findSome env geminiModels

/-- C2 witness: in an environment where the first model's reply fails
to parse and the second parses with both arrays non-empty, `getNews`
returns the second model's digest, matching the first-success
characterisation. -/
theorem getNews_model_fallback_order_witness :
    envC2.hasKey = true ∧
    (geminiModels = ["gemini-1.5-flash", "gemini-1.5-pro", "gemini-pro",
                     "gemini-2.5-flash", "gemini-2.5-pro"] ∧
     getNews envC2 = ((geminiModels.findSome? (attemptModel envC2)).getD ⟨.jarr [], .jarr []⟩)) ∧
    getNews envC2 = ⟨.jarr [7], .jarr [8]⟩ :=
  ⟨rfl, getNews_model_fallback_order envC2 rfl, by decide⟩

/-- C7: the per-language merge list is the intro clip, then the
captioned per-item clips, then the outro clip (when those files exist
on disk); and `getAllVideos` yields exactly the files matching
`reel_\x7blanguage\x7d\x7bn\x7d.mp4`, ordered ascending by the numeric
suffix parsed from the filename. -/
theorem mergeOrder_intro_items_outro (folderExists : Bool) (folder lang intro outro : Str)
    (files : List Str) (existsFS : Str → Bool)
    (hIntro : existsFS intro = true) (hOutro : existsFS outro = true)
    (hReels : ∀ v ∈ getAllVideos folderExists folder lang files, existsFS v = true) :
    mergeList existsFS intro outro (getAllVideos folderExists folder lang files)
      = intro :: (getAllVideos folderExists folder lang files ++ [outro]) ∧
    (getAllVideoNames lang files).Perm
      (files.filter (fun f => (matchReel lang f).isSome)) ∧
    List.Pairwise (fun a b => reelKey lang a ≤ reelKey lang b) (getAllVideoNames lang files) := by
  refine ⟨?_, ?_, ?_⟩
  · unfold mergeList
    rw [List.filter_append, List.filter_cons_of_pos hIntro,
      List.filter_eq_self.mpr hReels]
    simp [hOutro]
  · exact List.perm_insertionSort _ _
  · haveI : IsTotal Str (fun a b => reelKey lang a ≤ reelKey lang b) :=
      ⟨fun a b => Nat.le_total _ _⟩
    haveI : IsTrans Str (fun a b => reelKey lang a ≤ reelKey lang b) :=
      ⟨fun _ _ _ hab hbc => Nat.le_trans hab hbc⟩
    exact List.sorted_insertionSort _ _

/-- C7 witness: with files `reel_hindi10.mp4`, `reel_hindi2.mp4`,
`notes.txt`, `reel_hindi1.mp4` on disk, the merge list is the intro,
then the hindi reels in the order 1, 2, 10, then the outro. -/
theorem mergeOrder_intro_items_outro_witness :
    ((fun _ : Str => true) "i.mp4".toList = true) ∧
    ((fun _ : Str => true) "o.mp4".toList = true) ∧
    (∀ v ∈ getAllVideos true "out".toList "hindi".toList
        (["reel_hindi10.mp4", "reel_hindi2.mp4", "notes.txt", "reel_hindi1.mp4"].map
          String.toList), (fun _ : Str => true) v = true) ∧
    (mergeList (fun _ : Str => true) "i.mp4".toList "o.mp4".toList
        (getAllVideos true "out".toList "hindi".toList
          (["reel_hindi10.mp4", "reel_hindi2.mp4", "notes.txt", "reel_hindi1.mp4"].map
            String.toList))
      = "i.mp4".toList ::
          (getAllVideos true "out".toList "hindi".toList
            (["reel_hindi10.mp4", "reel_hindi2.mp4", "notes.txt", "reel_hindi1.mp4"].map
              String.toList) ++ ["o.mp4".toList]) ∧
     (getAllVideoNames "hindi".toList
        (["reel_hindi10.mp4", "reel_hindi2.mp4", "notes.txt", "reel_hindi1.mp4"].map
          String.toList)).Perm
       ((["reel_hindi10.mp4", "reel_hindi2.mp4", "notes.txt", "reel_hindi1.mp4"].map
          String.toList).filter (fun f => (matchReel "hindi".toList f).isSome)) ∧
     List.Pairwise
       (fun a b => reelKey "hindi".toList a ≤ reelKey "hindi".toList b)
       (getAllVideoNames "hindi".toList
         (["reel_hindi10.mp4", "reel_hindi2.mp4", "notes.txt", "reel_hindi1.mp4"].map
           String.toList))) :=
  ⟨rfl, rfl, fun _ _ => rfl,
   mergeOrder_intro_items_outro true "out".toList "hindi".toList "i.mp4".toList
     "o.mp4".toList _ _ rfl rfl (fun _ _ => rfl)⟩

/-! ### Lemmas on character indices, towards the `cleanGeminiJSON`
fence-equivalence claim -/

theorem firstIdxOf_isSome_of_mem {c : Char} {l : Str} (h : c ∈ l) :
    (firstIdxOf c l).isSome := by
  induction l with
  | nil => cases h
  | cons a l ih =>
    rw [firstIdxOf]
    by_cases ha : a = c
    · simp [ha]
    · rcases List.mem_cons.mp h with h' | h'
      · exact absurd h'.symm ha
      · simp only [if_neg ha]
        cases hf : firstIdxOf c l with
        | none => rw [hf] at ih; exact absurd (ih h') (by simp)
        | some i => simp

theorem firstIdxOf_lt_length {c : Char} {l : Str} {i : Nat}
    (h : firstIdxOf c l = some i) : i < l.length := by
  induction l generalizing i with
  | nil => cases h
  | cons a l ih =>
    rw [firstIdxOf] at h
    by_cases ha : a = c
    · rw [if_pos ha] at h
      injection h with h
      subst h
      simp
    · rw [if_neg ha] at h
      cases hf : firstIdxOf c l with
      | none => rw [hf] at h; cases h
      | some i' =>
        rw [hf] at h
        injection h with h
        subst h
        simpa using ih hf

theorem firstIdxOf_drop {c : Char} {l : Str} {i : Nat}
    (h : firstIdxOf c l = some i) : ∃ t, l.drop i = c :: t := by
  induction l generalizing i with
  | nil => cases h
  | cons a l ih =>
    rw [firstIdxOf] at h
    by_cases ha : a = c
    · rw [if_pos ha] at h
      injection h with h
      subst h
      exact ⟨l, by simp [ha]⟩
    · rw [if_neg ha] at h
      cases hf : firstIdxOf c l with
      | none => rw [hf] at h; cases h
      | some i' =>
        rw [hf] at h
        injection h with h
        subst h
        simpa using ih hf

theorem firstIdxOf_append_left {c : Char} {P r : Str} (hc : c ∉ P) :
    firstIdxOf c (P ++ r) = (firstIdxOf c r).map (· + P.length) := by
  induction P with
  | nil =>
    rw [List.nil_append]
    cases hf : firstIdxOf c r <;> simp [hf]
  | cons a P ih =>
    have ha : a ≠ c := fun h => hc (h ▸ List.mem_cons_self a P)
    have hP : c ∉ P := fun h => hc (List.mem_cons_of_mem a h)
    rw [List.cons_append, firstIdxOf, if_neg ha, ih hP]
    cases firstIdxOf c r with
    | none => rfl
    | some i => simp [Nat.add_assoc]

theorem firstIdxOf_append_of_some {c : Char} {r S : Str} {i : Nat}
    (h : firstIdxOf c r = some i) : firstIdxOf c (r ++ S) = some i := by
  induction r generalizing i with
  | nil => cases h
  | cons a r ih =>
    rw [firstIdxOf] at h
    rw [List.cons_append, firstIdxOf]
    by_cases ha : a = c
    · rw [if_pos ha] at h ⊢
      exact h
    · rw [if_neg ha] at h ⊢
      cases hf : firstIdxOf c r with
      | none => rw [hf] at h; cases h
      | some i' =>
        rw [hf] at h
        rw [ih hf]
        exact h

theorem lastIdxOf_eq_none {c : Char} {l : Str} (h : c ∉ l) :
    lastIdxOf c l = none := by
  induction l with
  | nil => rfl
  | cons a l ih =>
    have ha : a ≠ c := fun h' => h (h' ▸ List.mem_cons_self a l)
    have hl : c ∉ l := fun h' => h (List.mem_cons_of_mem a h')
    rw [lastIdxOf, ih hl, if_neg ha]

theorem lastIdxOf_isSome_of_mem {c : Char} {l : Str} (h : c ∈ l) :
    (lastIdxOf c l).isSome := by
  induction l with
  | nil => cases h
  | cons a l ih =>
    rw [lastIdxOf]
    cases hf : lastIdxOf c l with
    | some k => simp
    | none =>
      rcases List.mem_cons.mp h with h' | h'
      · simp [h'.symm]
      · rw [hf] at ih
        exact absurd (ih h') (by simp)

theorem lastIdxOf_lt_length {c : Char} {l : Str} {j : Nat}
    (h : lastIdxOf c l = some j) : j < l.length := by
  induction l generalizing j with
  | nil => cases h
  | cons a l ih =>
    rw [lastIdxOf] at h
    cases hf : lastIdxOf c l with
    | some k =>
      rw [hf] at h
      injection h with h
      subst h
      simpa using ih hf
    | none =>
      rw [hf] at h
      by_cases ha : a = c
      · rw [if_pos ha] at h
        injection h with h
        subst h
        simp
      · rw [if_neg ha] at h
        cases h

theorem lastIdxOf_take {c : Char} {l : Str} {j : Nat}
    (h : lastIdxOf c l = some j) :
    ∃ t, l.take (j + 1) = t ++ [c] ∧ t.length = j := by
  induction l generalizing j with
  | nil => cases h
  | cons a l ih =>
    rw [lastIdxOf] at h
    cases hf : lastIdxOf c l with
    | some k =>
      rw [hf] at h
      injection h with h
      subst h
      obtain ⟨t, ht, hlen⟩ := ih hf
      exact ⟨a :: t, by simp [List.take_succ_cons, ht], by simp [hlen]⟩
    | none =>
      rw [hf] at h
      by_cases ha : a = c
      · rw [if_pos ha] at h
        injection h with h
        subst h
        exact ⟨[], by simp [ha], rfl⟩
      · rw [if_neg ha] at h
        cases h

theorem lastIdxOf_append_right {c : Char} {r S : Str} (hc : c ∉ S) :
    lastIdxOf c (r ++ S) = lastIdxOf c r := by
  induction r with
  | nil => simpa using lastIdxOf_eq_none hc
  | cons a r ih => rw [List.cons_append, lastIdxOf, ih, lastIdxOf]

theorem lastIdxOf_append_left {c : Char} {P r : Str} {j : Nat}
    (h : lastIdxOf c r = some j) :
    lastIdxOf c (P ++ r) = some (P.length + j) := by
  induction P with
  | nil => simpa using h
  | cons a P ih =>
    rw [List.cons_append, lastIdxOf, ih]
    simp [Nat.add_right_comm P.length j 1, Nat.add_assoc]

/-- Stripping a brace-free prefix and suffix does not change the
curly-brace truncation, as long as both braces occur in the middle. -/
theorem curlyExtract_sandwich {P m S : Str} (hP : braceFree P) (hS : braceFree S)
    (hm1 : '\x7b' ∈ m) (hm2 : '\x7d' ∈ m) :
    curlyExtract (P ++ m ++ S) = curlyExtract m := by
  obtain ⟨i, hi⟩ := Option.isSome_iff_exists.mp (firstIdxOf_isSome_of_mem hm1)
  obtain ⟨j, hj⟩ := Option.isSome_iff_exists.mp (lastIdxOf_isSome_of_mem hm2)
  have hiL : i < m.length := firstIdxOf_lt_length hi
  have hjL : j < m.length := lastIdxOf_lt_length hj
  have hf : firstIdxOf '\x7b' (P ++ m ++ S) = some (i + P.length) := by
    rw [List.append_assoc, firstIdxOf_append_left hP.1,
      firstIdxOf_append_of_some hi]
    rfl
  have hl : lastIdxOf '\x7d' (P ++ m ++ S) = some (P.length + j) := by
    rw [lastIdxOf_append_right hS.2, lastIdxOf_append_left hj]
  have e1 : curlyExtract (P ++ m ++ S)
      = jsSubstring (P ++ m ++ S) (i + P.length) (P.length + j + 1) := by
    simp only [curlyExtract, hf, hl]
  have e2 : curlyExtract m = jsSubstring m i (j + 1) := by
    simp only [curlyExtract, hi, hj]
  rw [e1, e2, jsSubstring, jsSubstring]
  have hx : min (i + P.length) (P.length + j + 1) = P.length + min i (j + 1) := by
    omega
  have hy : max (i + P.length) (P.length + j + 1) = P.length + max i (j + 1) := by
    omega
  have hxm : min i (j + 1) ≤ m.length :=
    le_trans (Nat.min_le_left _ _) (Nat.le_of_lt hiL)
  have hym : max i (j + 1) ≤ m.length :=
    Nat.max_le.mpr ⟨Nat.le_of_lt hiL, hjL⟩
  have hsub : P.length + max i (j + 1) - (P.length + min i (j + 1))
      = max i (j + 1) - min i (j + 1) := by omega
  rw [hx, hy, hsub, List.append_assoc, List.drop_append,
    List.drop_append_of_le_length hxm, List.take_append_of_le_length]
  rw [List.length_drop]
  omega

/-- The sandwich relation is reflexive. -/
theorem sandwich_refl (l : Str) : Sandwich l l :=
  ⟨[], [], by simp, ⟨by simp, by simp⟩, ⟨by simp, by simp⟩⟩

/-- Composing two brace-free sandwich decompositions. -/
theorem sandwich_trans {l m m' : Str} (h1 : Sandwich l m) (h2 : Sandwich m m') :
    Sandwich l m' := by
  obtain ⟨P, S, he, hP, hS⟩ := h1
  obtain ⟨P', S', he', hP', hS'⟩ := h2
  refine ⟨P ++ P', S' ++ S, ?_, ?_, ?_⟩
  · rw [he, he']
    simp [List.append_assoc]
  · exact ⟨by simp [hP.1, hP'.1], by simp [hP.2, hP'.2]⟩
  · exact ⟨by simp [hS.1, hS'.1], by simp [hS.2, hS'.2]⟩

/-- A run of JavaScript whitespace contains no curly brace. -/
theorem braceFree_of_all_ws {l : Str} (h : ∀ c ∈ l, jsWS c = true) : braceFree l := by
  constructor
  · intro hc
    have := h _ hc
    exact absurd this (by decide)
  · intro hc
    have := h _ hc
    exact absurd this (by decide)

/-- Left-trimming removes a brace-free (whitespace) prefix. -/
theorem sandwich_trimLeft (l : Str) : Sandwich l (trimLeft l) := by
  refine ⟨l.takeWhile jsWS, [], ?_, ?_, ⟨by simp, by simp⟩⟩
  · rw [List.append_nil, trimLeft, List.takeWhile_append_dropWhile]
  · exact braceFree_of_all_ws fun c hc => List.mem_takeWhile_imp hc

/-- Right-trimming removes a brace-free (whitespace) suffix. -/
theorem sandwich_trimRight (l : Str) : Sandwich l (trimRight l) := by
  refine ⟨[], (l.reverse.takeWhile jsWS).reverse, ?_, ⟨by simp, by simp⟩, ?_⟩
  · rw [List.nil_append, trimRight, ← List.reverse_append,
      List.takeWhile_append_dropWhile, List.reverse_reverse]
  · have : braceFree (l.reverse.takeWhile jsWS) :=
      braceFree_of_all_ws fun c hc => List.mem_takeWhile_imp hc
    exact ⟨by simpa using this.1, by simpa using this.2⟩

/-- JS `trim` removes a brace-free prefix and suffix. -/
theorem sandwich_trimL (l : Str) : Sandwich l (trimL l) :=
  sandwich_trans (sandwich_trimLeft l) (sandwich_trimRight (trimLeft l))

/-- Stripping the case-insensitive opening ```json fence removes a
brace-free prefix. -/
theorem sandwich_stripFenceJson (l : Str) : Sandwich l (stripFenceJson l) := by
  rw [stripFenceJson]
  split
  · rename_i h
    have heq : (l.take fenceJsonChars.length).map Char.toLower = fenceJsonChars := by
      simpa [matchCI] using h
    refine ⟨l.take fenceJsonChars.length, [], by simp, ?_, ⟨by simp, by simp⟩⟩
    constructor
    · intro hc
      have hmem := heq ▸ List.mem_map_of_mem Char.toLower hc
      revert hmem
      decide
    · intro hc
      have hmem := heq ▸ List.mem_map_of_mem Char.toLower hc
      revert hmem
      decide
  · exact sandwich_refl l

/-- Stripping a leading plain ``` fence removes a brace-free prefix. -/
theorem sandwich_stripFenceHead (l : Str) : Sandwich l (stripFenceHead l) := by
  rw [stripFenceHead]
  split
  · rename_i h
    refine ⟨l.take fenceChars.length, [], by simp, ?_, ⟨by simp, by simp⟩⟩
    rw [h]
    exact ⟨by decide, by decide⟩
  · exact sandwich_refl l

/-- Stripping a trailing ``` fence removes a brace-free suffix. -/
theorem sandwich_stripFenceTail (l : Str) : Sandwich l (stripFenceTail l) := by
  rw [stripFenceTail]
  split
  · rename_i h
    refine ⟨[], (l.reverse.take fenceChars.length).reverse, ?_, ⟨by simp, by simp⟩, ?_⟩
    · rw [List.nil_append, ← List.reverse_append, List.take_append_drop,
        List.reverse_reverse]
    · rw [h]
      exact ⟨by decide, by decide⟩
  · exact sandwich_refl l

/-- The whole fence-stripping pipeline of `cleanGeminiJSON` only
removes brace-free material from the two ends. -/
theorem sandwich_pipeline (l : Str) :
    Sandwich l (stripFenceTail (stripFenceHead (stripFenceJson (trimL l)))) :=
  sandwich_trans
    (sandwich_trans
      (sandwich_trans (sandwich_trimL l) (sandwich_stripFenceJson _))
      (sandwich_stripFenceHead _))
    (sandwich_stripFenceTail _)

/-- Braces survive the removal of brace-free affixes. -/
theorem brace_mem_of_sandwich {l m : Str} (h : Sandwich l m) :
    ('\x7b' ∈ l → '\x7b' ∈ m) ∧ ('\x7d' ∈ l → '\x7d' ∈ m) := by
  obtain ⟨P, S, he, hP, hS⟩ := h
  subst he
  constructor
  · intro hb
    rcases List.mem_append.mp hb with hb | hb
    · rcases List.mem_append.mp hb with hb | hb
      · exact absurd hb hP.1
      · exact hb
    · exact absurd hb hS.1
  · intro hb
    rcases List.mem_append.mp hb with hb | hb
    · rcases List.mem_append.mp hb with hb | hb
      · exact absurd hb hP.2
      · exact hb
    · exact absurd hb hS.2

/-- When the raw text contains both braces, `cleanGeminiJSON` is the
trimmed curly-brace truncation of the raw text itself: the fence
stripping never moves the outermost braces. -/
theorem cleanGeminiJSON_eq_trim_extract {l : Str} (h1 : '\x7b' ∈ l) (h2 : '\x7d' ∈ l) :
    cleanGeminiJSON l = trimL (curlyExtract l) := by
  have hne : l ≠ [] := by
    rintro rfl
    cases h1
  rw [cleanGeminiJSON, if_neg hne]
  obtain ⟨P, S, he, hP, hS⟩ := sandwich_pipeline l
  have hsand : Sandwich l (stripFenceTail (stripFenceHead (stripFenceJson (trimL l)))) :=
    ⟨P, S, he, hP, hS⟩
  have hm1 := (brace_mem_of_sandwich hsand).1 h1
  have hm2 := (brace_mem_of_sandwich hsand).2 h2
  have : curlyExtract l
      = curlyExtract (stripFenceTail (stripFenceHead (stripFenceJson (trimL l)))) := by
    conv_lhs => rw [he]
    exact curlyExtract_sandwich hP hS hm1 hm2
  rw [← this]

/-- `trimLeft` is the identity on a list starting with a
non-whitespace character. -/
theorem trimLeft_cons_not_ws {a : Char} {l : Str} (ha : jsWS a = false) :
    trimLeft (a :: l) = a :: l := by
  rw [trimLeft, List.dropWhile_cons]
  simp [ha]

/-- `trimRight` is the identity on a list ending with a non-whitespace
character. -/
theorem trimRight_append_not_ws {l : Str} {b : Char} (hb : jsWS b = false) :
    trimRight (l ++ [b]) = l ++ [b] := by
  rw [trimRight, List.reverse_append, List.reverse_singleton, List.singleton_append,
    List.dropWhile_cons]
  simp [hb]

/-- C4: cleaning a response wrapped in Markdown code fences
(```json ... ```) yields output byte-identical to cleaning the
unwrapped text, and that output is the substring of the raw text from
its first opening curly brace (index `i`) to its last closing curly
brace (index `j`). -/
theorem cleanGeminiJSON_fence_equiv (t : Str) (i j : Nat)
    (hi : firstIdxOf '\x7b' t = some i) (hj : lastIdxOf '\x7d' t = some j)
    (hij : i ≤ j) :
    cleanGeminiJSON (wrapFences t) = cleanGeminiJSON t ∧
    cleanGeminiJSON t = (t.drop i).take (j + 1 - i) := by
  obtain ⟨r, hr⟩ := firstIdxOf_drop hi
  obtain ⟨u, hu, hulen⟩ := lastIdxOf_take hj
  have hm1 : '\x7b' ∈ t := by
    rw [← List.take_append_drop i t]
    exact List.mem_append.mpr (Or.inr (hr ▸ List.mem_cons_self _ _))
  have hm2 : '\x7d' ∈ t := by
    rw [← List.take_append_drop (j + 1) t]
    refine List.mem_append.mpr (Or.inl ?_)
    rw [hu]
    exact List.mem_append.mpr (Or.inr (List.mem_singleton.mpr rfl))
  have hext : curlyExtract t = (t.drop i).take (j + 1 - i) := by
    have hmin : min i (j + 1) = i := by omega
    have hmax : max i (j + 1) = j + 1 := by omega
    simp only [curlyExtract, hi, hj, jsSubstring, hmin, hmax]
  have hshape : (t.drop i).take (j + 1 - i) = '\x7b' :: r.take (j - i) := by
    rw [hr, show j + 1 - i = (j - i) + 1 by omega, List.take_succ_cons]
  have hshape2 : (t.drop i).take (j + 1 - i) = u.drop i ++ ['\x7d'] := by
    rw [← List.drop_take, hu, List.drop_append_of_le_length (by omega)]
  have htrim : trimL ((t.drop i).take (j + 1 - i)) = (t.drop i).take (j + 1 - i) := by
    have e1 : trimLeft ((t.drop i).take (j + 1 - i)) = (t.drop i).take (j + 1 - i) := by
      rw [hshape]
      exact trimLeft_cons_not_ws (by decide)
    have e2 : trimRight ((t.drop i).take (j + 1 - i)) = (t.drop i).take (j + 1 - i) := by
      rw [hshape2]
      exact trimRight_append_not_ws (by decide)
    rw [trimL, e1, e2]
  have hc2 : cleanGeminiJSON t = (t.drop i).take (j + 1 - i) := by
    rw [cleanGeminiJSON_eq_trim_extract hm1 hm2, hext, htrim]
  refine ⟨?_, hc2⟩
  have hw1 : '\x7b' ∈ wrapFences t := by
    rw [wrapFences]
    exact List.mem_append.mpr (Or.inl (List.mem_append.mpr (Or.inr hm1)))
  have hw2 : '\x7d' ∈ wrapFences t := by
    rw [wrapFences]
    exact List.mem_append.mpr (Or.inl (List.mem_append.mpr (Or.inr hm2)))
  rw [cleanGeminiJSON_eq_trim_extract hw1 hw2, cleanGeminiJSON_eq_trim_extract hm1 hm2]
  have : curlyExtract (wrapFences t) = curlyExtract t := by
    rw [wrapFences, List.append_assoc, ← List.append_assoc]
    exact curlyExtract_sandwich ⟨by decide, by decide⟩ ⟨by decide, by decide⟩ hm1 hm2
  rw [this]

/-- C4 witness: for the concrete reply `x \x7b"a": 1\x7d y`, whose first
opening brace is at index 2 and last closing brace at index 9, the
fence-wrapped and unwrapped forms clean to the same bytes, namely the
brace-delimited substring. -/
theorem cleanGeminiJSON_fence_equiv_witness :
    firstIdxOf '\x7b' "x \x7b\"a\": 1\x7d y".toList = some 2 ∧
    lastIdxOf '\x7d' "x \x7b\"a\": 1\x7d y".toList = some 9 ∧
    2 ≤ 9 ∧
    (cleanGeminiJSON (wrapFences "x \x7b\"a\": 1\x7d y".toList)
        = cleanGeminiJSON "x \x7b\"a\": 1\x7d y".toList ∧
     cleanGeminiJSON "x \x7b\"a\": 1\x7d y".toList
        = (("x \x7b\"a\": 1\x7d y".toList).drop 2).take (9 + 1 - 2)) :=
  ⟨by decide, by decide, by decide,
   cleanGeminiJSON_fence_equiv "x \x7b\"a\": 1\x7d y".toList 2 9
     (by decide) (by decide) (by decide)⟩

end W24
